import Mathlib

/-!
Verification of the SiteMapGenerator crawler (`site_map.py`).

The pure helpers (`strip_http_www`, `is_image_link`, `get_domain_links`,
`get_image_links`, `get_non_image_links`) are embedded directly.  Python's
`str.strip` / `str.lstrip` take a *character set*, not a literal prefix, so
they are modelled as such (`pyLstrip`, `pyStrip`).

The orchestrator `build_site_map` is an `async` recursive function; the
network fetch composed with `get_all_links_from_html` is abstracted as an
oracle `fetch : String → Except CrawlError (List String)` giving the
deduplicated link list extracted from the fetched body (or a transport
failure).  The cooperative single-scheduler semantics of the spec is
serialized depth-first: each child coroutine of the `asyncio.gather` batch
runs to completion before the next (the candidate list is fixed against the
visited set at spawn time, exactly as the list comprehension on lines
130-134 does).  The shared mutable `processed_sites` set is explicit state,
threaded through the recursion and returned alongside the result.
-/

namespace SiteMap

/-- Python `str.lstrip(chars)` on a character list: drop the maximal leading
run of characters belonging to `cs`. -/
def pyLstripList (cs : List Char) (l : List Char) : List Char :=
  match l with
  | [] => []
  | c :: rest => if c ∈ cs then pyLstripList cs rest else c :: rest

/-- Python `str.strip(chars)` on a character list: `lstrip` on both ends. -/
def pyStripList (cs : List Char) (l : List Char) : List Char :=
  (pyLstripList cs (pyLstripList cs l).reverse).reverse

/-- Python `str.lstrip(chars)` on strings. -/
def pyLstrip (cs : List Char) (s : String) : String :=
  ⟨pyLstripList cs s.toList⟩

/-- Python `str.strip(chars)` on strings. -/
def pyStrip (cs : List Char) (s : String) : String :=
  ⟨pyStripList cs s.toList⟩

/-- Decides whether `p` is a literal prefix of `l` (character-list version). -/
def listStartsWith (p l : List Char) : Bool :=
  match p, l with
  | [], _ => true
  | _ :: _, [] => false
  | a :: ps, b :: ls => a = b && listStartsWith ps ls

/-- Python `s.startswith(pre)`: `pre` is a literal prefix of `s`. -/
def pyStartswith (s pre : String) : Bool :=
  listStartsWith pre.toList s.toList

/-- Embeds `strip_http_www` (site_map.py lines 29-38): strip surrounding `/`, then,
guarded by `startswith`, Python-`lstrip` the scheme character set, then,
guarded by `startswith`, Python-`lstrip` the `www.` character set. -/
def strip_http_www (link : String) : String :=
  let l1 := pyStrip ['/'] link
  let l2 :=
    if pyStartswith l1 "https://" then pyLstrip "https://".toList l1
    else if pyStartswith l1 "http://" then pyLstrip "http://".toList l1
    else l1
  if pyStartswith l2 "www." then pyLstrip "www.".toList l2 else l2

/-- Embeds `IMAGE_EXTS` (site_map.py line 13).  Note the missing dot on `"jpg"`,
faithfully reproduced. -/
def IMAGE_EXTS : List String := [".ico", ".png", "jpg", ".gif"]

/-- Python `s[-4:]`: the last four characters (the whole string if shorter). -/
def lastFour (s : String) : String :=
  ⟨s.toList.drop (s.toList.length - 4)⟩

/-- Python `s.lower()` (ASCII-adequate for the extension strings involved). -/
def pyLower (s : String) : String :=
  ⟨s.toList.map Char.toLower⟩

/-- Embeds `is_image_link` (site_map.py lines 53-55): `link[-4:].lower() in IMAGE_EXTS`. -/
def is_image_link (link : String) : Bool :=
  pyLower (lastFour link) ∈ IMAGE_EXTS

/-- Embeds `get_domain_links` (site_map.py lines 41-50). -/
def get_domain_links (links : List String) (domain_url : String) : List String :=
  links.filter (fun link =>
    pyStartswith (strip_http_www link) (strip_http_www domain_url)
      && !is_image_link link)

/-- Embeds `get_image_links` (site_map.py lines 58-60). -/
def get_image_links (links : List String) : List String :=
  links.filter (fun link => is_image_link link)

/-- Embeds `get_non_image_links` (site_map.py lines 63-65). -/
def get_non_image_links (links : List String) : List String :=
  links.filter (fun link => !is_image_link link)

/-- One page record of the site map: the dict built on site_map.py
lines 122-126. -/
structure PageRecord where
  page_url : String
  links : List String
  images : List String
deriving DecidableEq, Repr

/-- The two ways `build_site_map` can raise: the explicit
`Exception("starting_url was not specified.")` on line 115, and a transport
failure escaping `fetch_html` on line 117. -/
inductive CrawlError where
  | configError
  | transportFailure
deriving DecidableEq, Repr

deriving instance DecidableEq for Except

/-- Outcome of one (serialized) coroutine: the returned site-map list or the
raised error, together with the shared `processed_sites` set afterwards. -/
abbrev CrawlOutcome := Except CrawlError (List PageRecord) × List String

/-- The `asyncio.gather` batch of site_map.py lines 130-137, serialized
depth-first: run `step` on each spawned URL in spawn order, threading the
shared visited set; the first raised error propagates through the join and
the collected records are discarded. -/
def crawlMany (step : String → List String → CrawlOutcome) :
    List String → List String → CrawlOutcome
  | [], visited => (Except.ok [], visited)
  | l :: rest, visited =>
    match step l visited with
    | (Except.error e, v1) => (Except.error e, v1)
    | (Except.ok recs, v1) =>
      match crawlMany step rest v1 with
      | (Except.error e, v2) => (Except.error e, v2)
      | (Except.ok recs2, v2) => (Except.ok (recs ++ recs2), v2)

/-- The record dict built on site_map.py lines 122-126: the page's URL, its
non-image links and its image links. -/
def pageRecordOf (url : String) (links : List String) : PageRecord :=
  ⟨url, get_non_image_links links, get_image_links links⟩

/-- The list comprehension of site_map.py lines 130-134: the domain links of
the page that are not in the (shared) visited set at spawn time. -/
def candidatesOf (links : List String) (url : String) (visited1 : List String) :
    List String :=
  (get_domain_links links url).filter (fun l => !visited1.contains l)

/-- Embeds `build_site_map` (site_map.py lines 112-138) with the fetch+extract
pipeline abstracted as `fetch`.  Line by line: depth 0 returns `[]` (112-113);
an empty URL raises (114-115); the fetch runs (116-117) and may raise; links
are classified (118-121); the record is built (122-126); the page's URL is
added to the shared visited set (127); with no domain links the record alone
is returned (128-129); otherwise the candidates not already visited are
spawned with depth - 1 and joined (130-137), and the record is prepended to
the concatenation of the children's results (137-138). -/
def crawl (fetch : String → Except CrawlError (List String)) :
    Nat → String → List String → CrawlOutcome
  | 0, _, visited => (Except.ok [], visited)
  | d + 1, url, visited =>
    if url = "" then (Except.error CrawlError.configError, visited)
    else
      match fetch url with
      | Except.error e => (Except.error e, visited)
      | Except.ok links =>
        if (get_domain_links links url).isEmpty then
          (Except.ok [pageRecordOf url links], visited.insert url)
        else
          match crawlMany (crawl fetch d)
              (candidatesOf links url (visited.insert url))
              (visited.insert url) with
          | (Except.error e, v2) => (Except.error e, v2)
          | (Except.ok recs, v2) => (Except.ok (pageRecordOf url links :: recs), v2)

/-- The link oracle of Scenario B: the seed page `https://a.test/` links to
`https://a.test/b`, whose body links back to the seed; every other page is
empty. -/
def fetchB (url : String) : Except CrawlError (List String) :=
  if url = "https://a.test/" then Except.ok ["https://a.test/b"]
  else if url = "https://a.test/b" then Except.ok ["https://a.test/"]
  else Except.ok []

/-- Link oracle where the seed page links to a second spelling of itself:
`https://a.test/` (trailing slash) links to `https://a.test` (no slash); both
normalize to `a.test`.  Every other page is empty. -/
def fetchC (url : String) : Except CrawlError (List String) :=
  if url = "https://a.test/" then Except.ok ["https://a.test"]
  else Except.ok []

/-- Link oracle where the seed links to `https://a.test/b` and fetching
`https://a.test/b` raises a transport failure. -/
def fetchFail (url : String) : Except CrawlError (List String) :=
  if url = "https://a.test/" then Except.ok ["https://a.test/b"]
  else if url = "https://a.test/b" then Except.error CrawlError.transportFailure
  else Except.ok []

/-- CPython evaluates the default argument `processed_sites: Set[str] = set()`
(site_map.py line 71) once, at function-definition time; every top-level call
that omits the argument shares — and mutates — that single set.  A sequence of
top-level `build_site_map(url, depth)` calls is therefore a fold threading one
visited set through the calls. -/
def defaultedCalls (fetch : String → Except CrawlError (List String)) :
    List (String × Nat) → List String →
      List (Except CrawlError (List PageRecord)) × List String
  | [], visited => ([], visited)
  | (url, d) :: rest, visited =>
    match crawl fetch d url visited with
    | (r, v1) =>
      match defaultedCalls fetch rest v1 with
      | (rs, v2) => (r :: rs, v2)

/-- A sequence of top-level calls all using the default `processed_sites`:
the shared set starts out as the empty set created at definition time. -/
def build_site_map_default_sequence
    (fetch : String → Except CrawlError (List String))
    (calls : List (String × Nat)) :
    List (Except CrawlError (List PageRecord)) × List String :=
  defaultedCalls fetch calls []

/-- Python `lstrip` removes nothing when the first character is not in the set. -/
theorem pyLstripList_eq_of_head (cs : List Char) (l : List Char)
    (h : ∀ c, l.head? = some c → c ∉ cs) : pyLstripList cs l = l := by
  cases l with
  | nil => rfl
  | cons c rest =>
    have hc : c ∉ cs := h c rfl
    simp [pyLstripList, hc]

/-- Python `strip` removes nothing when neither end character is in the set. -/
theorem pyStripList_eq_of_ends (cs : List Char) (l : List Char)
    (h1 : ∀ c, l.head? = some c → c ∉ cs)
    (h2 : ∀ c, l.getLast? = some c → c ∉ cs) : pyStripList cs l = l := by
  unfold pyStripList
  rw [pyLstripList_eq_of_head cs l h1]
  rw [pyLstripList_eq_of_head cs l.reverse
    (fun c hc => h2 c (by rwa [List.head?_reverse] at hc))]
  exact List.reverse_reverse l

/-- If every successful `step` only grows the visited set and records only
pages present in the final set, so does the serialized `gather` batch. -/
theorem crawlMany_grows (step : String → List String → CrawlOutcome)
    (H : ∀ l v recs v', step l v = (Except.ok recs, v') →
      (∀ x ∈ v, x ∈ v') ∧ (∀ r ∈ recs, r.page_url ∈ v')) :
    ∀ ls v recs v', crawlMany step ls v = (Except.ok recs, v') →
      (∀ x ∈ v, x ∈ v') ∧ (∀ r ∈ recs, r.page_url ∈ v') := by
  intro ls
  induction ls with
  | nil =>
    intro v recs v' h
    simp only [crawlMany, Prod.mk.injEq, Except.ok.injEq] at h
    obtain ⟨hr, hv⟩ := h
    subst hr hv
    exact ⟨fun x hx => hx, by simp⟩
  | cons l rest ih =>
    intro v recs v' h
    simp only [crawlMany] at h
    cases hstep : step l v with
    | mk r1 v1 =>
      rw [hstep] at h
      cases r1 with
      | error e => simp at h
      | ok recs1 =>
        dsimp only at h
        cases hrest : crawlMany step rest v1 with
        | mk r2 v2 =>
          rw [hrest] at h
          cases r2 with
          | error e => simp at h
          | ok recs2 =>
            dsimp only at h
            simp only [Prod.mk.injEq, Except.ok.injEq] at h
            obtain ⟨hr, hv⟩ := h
            subst hr hv
            obtain ⟨hm1, hp1⟩ := H l v recs1 v1 hstep
            obtain ⟨hm2, hp2⟩ := ih v1 recs2 _ hrest
            refine ⟨fun x hx => hm2 x (hm1 x hx), ?_⟩
            intro r hr
            rcases List.mem_append.mp hr with h1 | h2
            · exact hm2 _ (hp1 r h1)
            · exact hp2 r h2

/-- A successful `crawl` only grows the shared visited set, and the page
URL of every returned record is in the final visited set. -/
theorem crawl_grows (fetch : String → Except CrawlError (List String)) :
    ∀ d url v recs v', crawl fetch d url v = (Except.ok recs, v') →
      (∀ x ∈ v, x ∈ v') ∧ (∀ r ∈ recs, r.page_url ∈ v') := by
  intro d
  induction d with
  | zero =>
    intro url v recs v' h
    simp only [crawl, Prod.mk.injEq, Except.ok.injEq] at h
    obtain ⟨hr, hv⟩ := h
    subst hr hv
    exact ⟨fun x hx => hx, by simp⟩
  | succ d ih =>
    intro url v recs v' h
    simp only [crawl] at h
    by_cases hurl : url = ""
    · rw [if_pos hurl] at h
      simp at h
    · rw [if_neg hurl] at h
      cases hf : fetch url with
      | error e => rw [hf] at h; simp at h
      | ok links =>
        rw [hf] at h
        dsimp only at h
        by_cases hdl : (get_domain_links links url).isEmpty
        · rw [if_pos hdl] at h
          simp only [Prod.mk.injEq, Except.ok.injEq] at h
          obtain ⟨hr, hv⟩ := h
          subst hr hv
          refine ⟨fun x hx => List.mem_insert_of_mem hx, ?_⟩
          intro r hr
          simp only [List.mem_singleton] at hr
          subst hr
          exact List.mem_insert_self url v
        · rw [if_neg hdl] at h
          cases hmany : crawlMany (crawl fetch d)
              (candidatesOf links url (v.insert url)) (v.insert url) with
          | mk r2 v2 =>
            rw [hmany] at h
            cases r2 with
            | error e => simp at h
            | ok recs2 =>
              dsimp only at h
              simp only [Prod.mk.injEq, Except.ok.injEq] at h
              obtain ⟨hr, hv⟩ := h
              subst hr hv
              obtain ⟨hm, hp⟩ := crawlMany_grows (crawl fetch d) (ih) _ _ _ _ hmany
              refine ⟨fun x hx => hm x (List.mem_insert_of_mem hx), ?_⟩
              intro r hr
              rcases List.mem_cons.mp hr with h1 | h2
              · subst h1
                exact hm url (List.mem_insert_self url v)
              · exact hp r h2

/-- C1: crawling Scenario B (seed `https://a.test/` links to
`https://a.test/b`, which links back to the seed) with depth budget 2 returns
exactly two page records, one per page, with no duplicate: the back edge is
cut because each page's URL is in the shared visited set before its children
are spawned and visited URLs are excluded from the candidate set (and the
back link is also outside page b's own domain prefix). -/
theorem claim1_scenarioB_cycle_two_records :
    crawl fetchB 2 "https://a.test/" [] =
      (Except.ok [⟨"https://a.test/", ["https://a.test/b"], []⟩,
                  ⟨"https://a.test/b", ["https://a.test/"], []⟩],
       ["https://a.test/b", "https://a.test/"]) := by decide

/-- C2 counterexample: scheme removal is not exact-literal-substring removal.
On `https://spam.example.com` the code also eats the `s` and `p` of `spam`
(they belong to the `https://` character set), returning `am.example.com`
instead of `spam.example.com`. -/
theorem claim2_charclass_counterexample :
    strip_http_www "https://spam.example.com" = "am.example.com" ∧
      strip_http_www "https://spam.example.com" ≠ "spam.example.com" := by decide

/-- C2 amended: each prefix stage fires at most once and only when the
literal prefix is present (exact `startswith` guard), but the removal itself
is Python `lstrip` over the prefix's character set and can strip past the
literal prefix (`https://spam.example.com` becomes `am.example.com`); the
cited example still holds (`https://wwww.example.com` gives
`wwww.example.com`, since `wwww.` does not start with the literal `www.`),
and when no guard matches nothing beyond the surrounding slashes is
removed. -/
theorem claim2_guarded_charclass_strip :
    strip_http_www "https://wwww.example.com" = "wwww.example.com" ∧
    strip_http_www "https://spam.example.com" = "am.example.com" ∧
    ∀ s : String,
      s.toList.head? ≠ some '/' → s.toList.getLast? ≠ some '/' →
      pyStartswith s "https://" = false → pyStartswith s "http://" = false →
      pyStartswith s "www." = false → strip_http_www s = s := by
  refine ⟨by decide, by decide, ?_⟩
  intro s h1 h2 hs1 hs2 hs3
  have hstrip : pyStrip ['/'] s = s := by
    have e1 : ∀ c, s.toList.head? = some c → c ∉ ['/'] := by
      intro c hc hmem
      simp only [List.mem_singleton] at hmem
      subst hmem
      exact h1 hc
    have e2 : ∀ c, s.toList.getLast? = some c → c ∉ ['/'] := by
      intro c hc hmem
      simp only [List.mem_singleton] at hmem
      subst hmem
      exact h2 hc
    show String.mk (pyStripList ['/'] s.toList) = s
    rw [pyStripList_eq_of_ends _ _ e1 e2]
    rfl
  simp only [strip_http_www]
  rw [hstrip]
  simp [hs1, hs2, hs3]

/-- C2 amended, witness: a string with no scheme, no `www.` and no
surrounding slashes passes through the normalizer unchanged. -/
theorem claim2_guarded_charclass_strip_witness :
    strip_http_www "x.example.com" = "x.example.com" :=
  claim2_guarded_charclass_strip.2.2 "x.example.com" (by decide) (by decide)
    (by decide) (by decide) (by decide)

/-- C3 (code bug): `.jpg` URLs are never classified as images, because
`IMAGE_EXTS` contains `"jpg"` without the dot while the compared slice
`link[-4:].lower()` is `".jpg"`; the other three extensions match
case-insensitively as the claim (and the repository's own
`test_is_image_link`, which asserts `is_image_link(".../img1.jpg")`) says. -/
theorem claim3_image_test_jpg_divergence :
    is_image_link "x/a.jpg" = false ∧
    is_image_link "https://example.com/img1.jpg" = false ∧
    pyLower (lastFour "x/a.jpg") = ".jpg" ∧
    IMAGE_EXTS = [".ico", ".png", "jpg", ".gif"] ∧
    is_image_link "x/a.GIF" = true ∧
    is_image_link "x/a.Png" = true ∧
    is_image_link "x/a.jpeg" = false := by decide

/-- C4 (code bug): CPython evaluates the default `processed_sites` set once
at definition time, so two top-level calls omitting the argument share
visited state: on Scenario B the first call returns both records but the
second identical call returns only the seed record (page b is not crawled
again), whereas a fresh per-invocation set (the spec's intent) yields both
records. -/
theorem claim4_default_visited_shared_across_calls :
    (build_site_map_default_sequence fetchB
        [("https://a.test/", 2), ("https://a.test/", 2)]).1 =
      [Except.ok [⟨"https://a.test/", ["https://a.test/b"], []⟩,
                  ⟨"https://a.test/b", ["https://a.test/"], []⟩],
       Except.ok [⟨"https://a.test/", ["https://a.test/b"], []⟩]] ∧
    (crawl fetchB 2 "https://a.test/" []).1 =
      Except.ok [⟨"https://a.test/", ["https://a.test/b"], []⟩,
                 ⟨"https://a.test/b", ["https://a.test/"], []⟩] := by decide

/-- C5: with depth budget 0 the crawl returns the empty sequence for every
URL (the empty string included) and every visited set, independently of the
fetch oracle (so no fetch is performed), raising no error and leaving the
visited set unchanged: the depth check precedes the URL check and all
I/O. -/
theorem claim5_depth_zero_returns_empty
    (fetch : String → Except CrawlError (List String)) (url : String)
    (visited : List String) :
    crawl fetch 0 url visited = (Except.ok [], visited) := rfl

/-- C6: a transport failure is never caught: if the fetch of the page itself
fails, the call returns that error, and if any spawned branch of the join
batch ends in an error, the parent returns that same error and discards every
record (its own included) — no partial result survives. -/
theorem claim6_transport_failure_aborts
    (fetch : String → Except CrawlError (List String)) (d : Nat) (url : String)
    (v : List String) (e : CrawlError) (hurl : ¬ url = "") :
    (fetch url = Except.error e →
      crawl fetch (d + 1) url v = (Except.error e, v)) ∧
    (∀ links v2, fetch url = Except.ok links →
      crawlMany (crawl fetch d) (candidatesOf links url (v.insert url))
          (v.insert url) = (Except.error e, v2) →
      crawl fetch (d + 1) url v = (Except.error e, v2)) := by
  constructor
  · intro hf
    simp only [crawl, if_neg hurl, hf]
  · intro links v2 hf hjoin
    simp only [crawl, if_neg hurl, hf]
    by_cases hdl : (get_domain_links links url).isEmpty
    · exfalso
      have hcand : candidatesOf links url (v.insert url) = [] := by
        unfold candidatesOf
        rw [List.isEmpty_iff] at hdl
        rw [hdl]
        rfl
      rw [hcand] at hjoin
      simp [crawlMany] at hjoin
    · rw [if_neg hdl, hjoin]

/-- C6 witness: in Scenario B with the fetch of page b failing, the
top-level depth-2 crawl of the seed aborts with the transport failure and
yields no records, even though the seed's own fetch succeeded. -/
theorem claim6_transport_failure_aborts_witness :
    crawl fetchFail 2 "https://a.test/" [] =
      (Except.error CrawlError.transportFailure, ["https://a.test/"]) :=
  (claim6_transport_failure_aborts fetchFail 1 "https://a.test/" []
      CrawlError.transportFailure (by decide)).2
    ["https://a.test/b"] ["https://a.test/"] (by decide) (by decide)

/-- C7 counterexample: the visited set holds raw, un-normalized URLs.
Crawling `https://a.test/` whose body links to the alternative spelling
`https://a.test` (both normalize to `a.test`) fetches and records the same
resource twice, and the final visited set contains the two raw spellings but
not the normalized form `a.test`. -/
theorem claim7_raw_visited_counterexample :
    crawl fetchC 2 "https://a.test/" [] =
      (Except.ok [⟨"https://a.test/", ["https://a.test"], []⟩,
                  ⟨"https://a.test", [], []⟩],
       ["https://a.test", "https://a.test/"]) ∧
    strip_http_www "https://a.test/" = strip_http_www "https://a.test" ∧
    "a.test" ∉ ["https://a.test", "https://a.test/"] := by decide

/-- C7 amended: the visited set stores each crawled page's URL verbatim (the
exact string passed to `build_site_map`, not its normalized form), and
candidate membership is exact string equality on raw URLs, so different
spellings of the same resource are distinct entries. -/
theorem claim7_visited_stores_verbatim_url
    (fetch : String → Except CrawlError (List String)) (d : Nat) (url : String)
    (v : List String) (recs : List PageRecord) (v2 : List String)
    (h : crawl fetch (d + 1) url v = (Except.ok recs, v2)) : url ∈ v2 := by
  simp only [crawl] at h
  by_cases hurl : url = ""
  · rw [if_pos hurl] at h
    simp at h
  · rw [if_neg hurl] at h
    cases hf : fetch url with
    | error e => rw [hf] at h; simp at h
    | ok links =>
      rw [hf] at h
      dsimp only at h
      by_cases hdl : (get_domain_links links url).isEmpty
      · rw [if_pos hdl] at h
        simp only [Prod.mk.injEq, Except.ok.injEq] at h
        obtain ⟨-, hv⟩ := h
        subst hv
        exact List.mem_insert_self url v
      · rw [if_neg hdl] at h
        cases hmany : crawlMany (crawl fetch d)
            (candidatesOf links url (v.insert url)) (v.insert url) with
        | mk r2 vv =>
          rw [hmany] at h
          cases r2 with
          | error e => simp at h
          | ok recs2 =>
            dsimp only at h
            simp only [Prod.mk.injEq, Except.ok.injEq] at h
            obtain ⟨-, hv⟩ := h
            subst hv
            exact (crawlMany_grows (crawl fetch d) (crawl_grows fetch d)
              _ _ _ _ hmany).1 url (List.mem_insert_self url v)

/-- C7 amended, witness: after crawling `https://a.test/` the visited set
contains that exact raw spelling. -/
theorem claim7_visited_stores_verbatim_url_witness :
    "https://a.test/" ∈ ["https://a.test/"] :=
  claim7_visited_stores_verbatim_url fetchC 0 "https://a.test/" []
    [⟨"https://a.test/", ["https://a.test"], []⟩] ["https://a.test/"]
    (by decide)

/-- C8: with any remaining depth of at least 1, crawling the empty URL
raises the configuration error synchronously: the result is the error for
every fetch oracle (so no I/O happens) and the visited set is returned
unchanged. -/
theorem claim8_empty_url_config_error
    (fetch : String → Except CrawlError (List String)) (d : Nat)
    (visited : List String) :
    crawl fetch (d + 1) "" visited =
      (Except.error CrawlError.configError, visited) := by
  simp [crawl]

/-- C9: for every link list `L`, the image subset and the non-image subset
partition `L`: an element is in their union exactly when it is in `L`, and
the two subsets are disjoint. -/
theorem claim9_image_partition (L : List String) (x : String) :
    (x ∈ get_image_links L ++ get_non_image_links L ↔ x ∈ L) ∧
      get_image_links L ∩ get_non_image_links L = [] := by
  constructor
  · simp only [List.mem_append, get_image_links, get_non_image_links,
      List.mem_filter]
    cases h : is_image_link x <;> simp [h]
  · rw [List.eq_nil_iff_forall_not_mem]
    intro y hy
    rw [List.mem_inter_iff] at hy
    obtain ⟨hy1, hy2⟩ := hy
    rw [get_image_links, List.mem_filter] at hy1
    rw [get_non_image_links, List.mem_filter] at hy2
    rw [hy1.2] at hy2
    simp at hy2

/-- C10: on every successful return of `crawl` the shared visited set has
only grown — every URL visited before the call is still visited after — and
the page URL of every returned record is in the final visited set. -/
theorem claim10_visited_monotone
    (fetch : String → Except CrawlError (List String)) (d : Nat) (url : String)
    (v : List String) (recs : List PageRecord) (v2 : List String)
    (h : crawl fetch d url v = (Except.ok recs, v2)) :
    (∀ x ∈ v, x ∈ v2) ∧ ∀ r ∈ recs, r.page_url ∈ v2 :=
  crawl_grows fetch d url v recs v2 h

/-- C10 witness: crawling Scenario B from a visited set already holding an
unrelated URL keeps that URL and records only pages present in the final
visited set. -/
theorem claim10_visited_monotone_witness :
    (∀ x ∈ ["https://z.test"],
      x ∈ ["https://a.test/b", "https://a.test/", "https://z.test"]) ∧
    ∀ r ∈ [(⟨"https://a.test/", ["https://a.test/b"], []⟩ : PageRecord),
           ⟨"https://a.test/b", ["https://a.test/"], []⟩],
      r.page_url ∈ ["https://a.test/b", "https://a.test/", "https://z.test"] :=
  claim10_visited_monotone fetchB 2 "https://a.test/" ["https://z.test"]
    [⟨"https://a.test/", ["https://a.test/b"], []⟩,
     ⟨"https://a.test/b", ["https://a.test/"], []⟩]
    ["https://a.test/b", "https://a.test/", "https://z.test"] (by decide)

end SiteMap

